import Mathlib

/-!
# NDVI Monitoring App — verification development

A shallow embedding of the NDVI monitoring script (`src/index.js`), a Google
Earth Engine (GEE) client.  Rasters are modelled as functions from geographic
coordinates (pairs of rationals) to optional rational pixel values (`none` is
a masked / no-data pixel).  Images carry a list of named bands plus a property
bag; collections are lists of images.  GEE platform primitives that the script
calls (`select`, `multiply`, `add`, `normalizedDifference`, `median`,
`filter(calendarRange)`, `copyProperties`, `toBands`, `clip`,
`getDownloadURL`, chart constructors) are modelled from their documented
platform semantics, which the script relies on; everything else is translated
directly from `src/index.js`.

The UI layer (buttons, map click handlers, global mutable state) is embedded
as a state machine over `AppState`, with one transition per user action.
-/

/-- Geographic coordinates (lon, lat). A raster band is a function on these. -/
abbrev Coords := ℚ × ℚ

/-- A pixel value: `none` is a masked (no-data) pixel. -/
abbrev Pix := Option ℚ

/-- A named raster band. -/
structure Band where
  name : String
  val : Coords → Pix

/-- A metadata property value (GEE properties are numbers, strings, or dates;
`system:time_start` timestamps are modelled structurally as dates). -/
inductive PropVal where
  | num (q : ℚ)
  | str (s : String)
  | date (y : Int) (m : Int) (d : Int)
deriving DecidableEq

/-- A calendar date, as produced by `ee.Date.fromYMD`. -/
structure Date where
  year : Int
  month : Int
  day : Int
deriving DecidableEq

/-- `ee.Date.fromYMD(y, m, d)`. -/
def Date.fromYMD (y m d : Int) : Date := ⟨y, m, d⟩

/-- A GEE image: a list of named bands plus a property bag. -/
structure EEImage where
  bands : List Band
  props : List (String × PropVal)

/-- Look up a property by name (first binding wins, as `ee.Image.get`). -/
def EEImage.getProp (img : EEImage) (k : String) : Option PropVal :=
  (img.props.find? (fun kv => kv.1 = k)).map (·.2)

/-- `ee.Number(img.get(k))`: fails (is `none`) unless the property exists and
is numeric. -/
def EEImage.getNum (img : EEImage) (k : String) : Option ℚ :=
  match img.getProp k with
  | some (.num q) => some q
  | _ => none

/-- The acquisition timestamp of an image, read from `system:time_start`. -/
def EEImage.getDate (img : EEImage) : Option Date :=
  match img.getProp "system:time_start" with
  | some (.date y m d) => some ⟨y, m, d⟩
  | _ => none

/-- The `system:index` label of an image (empty when absent). -/
def EEImage.getIndexStr (img : EEImage) : String :=
  match img.getProp "system:index" with
  | some (.str s) => s
  | _ => ""

/-- `img.set(k, v)`: override a property. -/
def EEImage.set (img : EEImage) (k : String) (v : PropVal) : EEImage :=
  { img with props := (k, v) :: img.props }

/-- `img.propertyNames()`: all property names of the image. -/
def EEImage.propertyNames (img : EEImage) : List String :=
  img.props.map (·.1)

/-- `result.copyProperties(source, keys)` (GEE primitive): the destination
image with the listed properties copied over from the source. -/
def EEImage.copyProperties (dst src : EEImage) (keys : List String) : EEImage :=
  { dst with props :=
      src.props.filter (fun kv => kv.1 ∈ keys) ++
      dst.props.filter (fun kv => kv.1 ∉ keys) }

/-- `img.select(pattern)` (GEE primitive): keep the bands whose name matches
the pattern. -/
def EEImage.select (img : EEImage) (pred : String → Bool) : EEImage :=
  { img with bands := img.bands.filter (fun b => pred b.name) }

/-- The regex `SR_B[2-5]` of `processLandsat`, as a full-match predicate on
the Landsat surface-reflectance band names. -/
def landsatBandPat (s : String) : Bool :=
  s ∈ ["SR_B2", "SR_B3", "SR_B4", "SR_B5"]

/-- The regex `B.*` of `processSentinel`, as a full-match predicate: any band
name whose first character is `B`. -/
def sentinelBandPat (s : String) : Bool :=
  match s.data with
  | [] => false
  | c :: _ => c = 'B'

/-- Apply a total function to every unmasked pixel of a band. -/
def Band.mapVal (b : Band) (f : ℚ → ℚ) : Band :=
  { b with val := fun p => (b.val p).map f }

/-- `img.multiply(ee.Image.constant(c))` (GEE primitive): multiply every band
uniformly by the scalar `c`; masked pixels stay masked. -/
def EEImage.multiplyC (img : EEImage) (c : ℚ) : EEImage :=
  { img with bands := img.bands.map (fun b => b.mapVal (· * c)) }

/-- `img.add(ee.Image.constant(c))` (GEE primitive): add the scalar `c` to
every band; masked pixels stay masked. -/
def EEImage.addC (img : EEImage) (c : ℚ) : EEImage :=
  { img with bands := img.bands.map (fun b => b.mapVal (· + c)) }

/-- Look up a band by name (first match). -/
def EEImage.getBand (img : EEImage) (n : String) : Option Band :=
  img.bands.find? (fun b => b.name = n)

/-- The per-pixel normalized difference `(x − y)/(x + y)`: masked when either
input is masked, and masked (not NaN, not a default) when the denominator is
zero, per the platform's divide-by-zero masking semantics. -/
def ndOp (x y : Pix) : Pix :=
  match x, y with
  | some a, some b => if a + b = 0 then none else some ((a - b) / (a + b))
  | _, _ => none

/-- `img.normalizedDifference([b1, b2])` (GEE primitive): a single-band image
named `nd` holding `(b1 − b2)/(b1 + b2)` per pixel; fails when a named band is
missing. -/
def EEImage.normalizedDifference (img : EEImage) (b1 b2 : String) : Option EEImage :=
  (img.getBand b1).bind (fun x => (img.getBand b2).bind (fun y =>
    some { bands := [⟨"nd", fun p => ndOp (x.val p) (y.val p)⟩], props := img.props }))

/-- `img.rename(n)` on a single-band image: rename every band to `n`. -/
def EEImage.renameTo (img : EEImage) (n : String) : EEImage :=
  { img with bands := img.bands.map (fun b => { b with name := n }) }

/-- `processLandsat` (src/index.js:194-200): read the red-band reflectance
gain and offset from the image's own metadata, calibrate the selected band
window `SR_B2..SR_B5` as `raw * gain + offset`, compute the normalized
difference of `SR_B5` (NIR) and `SR_B4` (RED), rename the result to `ndvi`,
and copy all source properties forward. -/
def processLandsat (img : EEImage) : Option EEImage := do
  let multBand ← img.getNum "REFLECTANCE_MULT_BAND_4"
  let addBand ← img.getNum "REFLECTANCE_ADD_BAND_4"
  let reflectance := ((img.select landsatBandPat).multiplyC multBand).addC addBand
  let nd ← reflectance.normalizedDifference "SR_B5" "SR_B4"
  let ndvi := nd.renameTo "ndvi"
  return ndvi.copyProperties img img.propertyNames

/-- `processSentinel` (src/index.js:205-209): scale all spectral bands `B.*`
by the fixed factor 0.0001, compute the normalized difference of `B8` (NIR)
and `B4` (RED), rename to `ndvi`, and copy all source properties forward. -/
def processSentinel (img : EEImage) : Option EEImage := do
  let reflectance := (img.select sentinelBandPat).multiplyC (1 / 10000)
  let nd ← reflectance.normalizedDifference "B8" "B4"
  let ndvi := nd.renameTo "ndvi"
  return ndvi.copyProperties img img.propertyNames

/-- The per-pixel median of a list of values: `none` on the empty list,
otherwise the middle of the sorted list (mean of the two middles for even
length), per the platform's median reducer. -/
def medianQ (l : List ℚ) : Option ℚ :=
  match l with
  | [] => none
  | _ :: _ =>
    let s := l.mergeSort (· ≤ ·)
    some ((s.getD ((l.length - 1) / 2) 0 + s.getD (l.length / 2) 0) / 2)

/-- The unmasked `ndvi`-band values of a collection at one pixel. -/
def bandValsAt (imgs : List EEImage) (p : Coords) : List ℚ :=
  imgs.filterMap (fun img => (img.getBand "ndvi").bind (fun b => b.val p))

/-- `collection.median()` (GEE primitive) over a collection of single-band
`ndvi` images: the per-pixel median of the unmasked values; a pixel with no
contributing values — in particular every pixel when the collection is
empty — is masked. -/
def medianCollection (imgs : List EEImage) : EEImage :=
  { bands := [⟨"ndvi", fun p => medianQ (bandValsAt imgs p)⟩], props := [] }

/-- `ee.Filter.calendarRange(m, m, 'month')` (GEE primitive): the image's
acquisition calendar month equals `m`; the year is not consulted. -/
def calendarRangeMonth (m : Int) (img : EEImage) : Bool :=
  match img.getDate with
  | some d => d.month = m
  | none => false

/-- Two-digit month rendering used by `date.format('YYYY-MM')`. -/
def pad2 (m : Int) : String :=
  if m < 10 then "0" ++ toString m else toString m

/-- `date.format('YYYY-MM')`. -/
def Date.formatYM (d : Date) : String :=
  toString d.year ++ "-" ++ pad2 d.month

/-- `ee.List.sequence(1, 12)`. -/
def monthsSeq : List Int :=
  (List.range 12).map (fun (i : Nat) => (i : Int) + 1)

/-- `computeMonthlyNDVI` (src/index.js:214-221): for each month 1..12, filter
the collection by calendar month, reduce by per-pixel median, and tag the
composite with `system:time_start` at day 1 of that month of `startYear + 1`
(the script's global `startYear`, passed here explicitly) and with a
`YYYY-MM` `system:index`. -/
def computeMonthlyNDVI (startYear : Int) (collection : List EEImage) : List EEImage :=
  monthsSeq.map (fun month =>
    let filtered := medianCollection (collection.filter (calendarRangeMonth month))
    let date := Date.fromYMD (startYear + 1) month 1
    (filtered.set "system:time_start" (.date date.year date.month date.day)).set
      "system:index" (.str date.formatYM))

/-- `collection.toBands()` (GEE primitive): one image whose band list is the
concatenation of the collection's bands in collection order, each renamed
`{index}_{band}`. -/
def toBands (imgs : List EEImage) : EEImage :=
  { bands := imgs.flatMap (fun img =>
      img.bands.map (fun b => { b with name := img.getIndexStr ++ "_" ++ b.name })),
    props := [] }

/-- `img.clip(region)` (GEE primitive), with the region modelled as the
finite set of pixel centers it covers: pixels outside are masked. -/
def EEImage.clip (img : EEImage) (region : List Coords) : EEImage :=
  { img with bands := img.bands.map (fun b =>
      { b with val := fun p => if p ∈ region then b.val p else none }) }

/-- Lexicographic date comparison, for `filterDate` and `sort`. -/
def Date.leb (a b : Date) : Bool :=
  a.year < b.year ∨ (a.year = b.year ∧
    (a.month < b.month ∨ (a.month = b.month ∧ a.day ≤ b.day)))

/-- Strict lexicographic date comparison. -/
def Date.ltb (a b : Date) : Bool :=
  Date.leb a b ∧ ¬ (a = b)

/-- `collection.filterDate(start, end)` (GEE primitive): keep images whose
timestamp lies in `[start, end)`. -/
def filterDate (startD endD : Date) (imgs : List EEImage) : List EEImage :=
  imgs.filter (fun img =>
    match img.getDate with
    | some d => Date.leb startD d && Date.ltb d endD
    | none => false)

/-- Comparison key for `collection.sort('system:time_start')`: images without
a timestamp sort first. -/
def timeLeb (a b : EEImage) : Bool :=
  match a.getDate, b.getDate with
  | some da, some db => Date.leb da db
  | none, _ => true
  | some _, none => false

/-- Insert into a time-sorted list. -/
def insertByTime (img : EEImage) : List EEImage → List EEImage
  | [] => [img]
  | b :: t => if timeLeb img b then img :: b :: t else b :: insertByTime img t

/-- `collection.sort('system:time_start')` (GEE primitive). -/
def sortByTime (imgs : List EEImage) : List EEImage :=
  imgs.foldr insertByTime []

/-- A user-drawn comparison point: a feature with a geometry and properties
(`ee.Feature(point, {name: pointName})`). -/
structure Feature where
  location : Coords
  props : List (String × PropVal)
deriving DecidableEq

/-- A feature's string property (empty when absent or non-string). -/
def Feature.propStr (f : Feature) (k : String) : String :=
  match (f.props.find? (fun kv => kv.1 = k)).map (·.2) with
  | some (PropVal.str s) => s
  | _ => ""

/-- The `name` property of a comparison point. -/
def Feature.nameOf (f : Feature) : String := f.propStr "name"

/-- One chart series: a legend label and per-composite (timestamp, value)
data points. -/
structure Series where
  label : String
  data : List (Option Date × Option ℚ)
deriving DecidableEq

/-- Spatial mean of the `ndvi` band over a region (the mean reducer of
`ui.Chart.image.series`): `none` when no pixel contributes. -/
def regionMean (img : EEImage) (region : List Coords) : Option ℚ :=
  let vals := region.filterMap (fun p => (img.getBand "ndvi").bind (fun b => b.val p))
  if vals.length = 0 then none else some (vals.sum / vals.length)

/-- Sample the `ndvi` band at one point. -/
def samplePoint (img : EEImage) (p : Coords) : Option ℚ :=
  (img.getBand "ndvi").bind (fun b => b.val p)

/-- `ui.Chart.image.seriesByRegion(imgs, features, mean, 'ndvi', 30,
'system:time_start', labelProp)` (GEE primitive): one series per feature,
legend-labeled by the feature's `labelProp` property. -/
def seriesByRegion (imgs : List EEImage) (features : List Feature)
    (labelProp : String) : List Series :=
  features.map (fun f =>
    { label := f.propStr labelProp,
      data := imgs.map (fun img => (img.getDate, samplePoint img f.location)) })

/-- The parameters the script passes to `ndviImage.getDownloadURL` plus the
image itself: the export artifact request. -/
structure ExportParams where
  image : EEImage
  format : String
  scale : ℚ
  region : List Coords

/-- `generateExportURL` (src/index.js:179-189): request a GeoTIFF export of
the NDVI image at scale 30 over the AOI. -/
def generateExportURL (ndviImage : EEImage) (aoi : List Coords) : ExportParams :=
  { image := ndviImage, format := "GeoTIFF", scale := 30, region := aoi }

/-- Everything `performNDVIAnalysis` derives and displays. -/
structure AnalysisResult where
  monthlyNDVI : List EEImage
  ndviImage : EEImage
  aoiChart : Series
  pointsChart : List Series
  exportReq : ExportParams

/-- `performNDVIAnalysis` (src/index.js:109-174), with the three catalog
queries (already date- and bounds-filtered by the platform before mapping)
abstracted into the raw collection arguments plus an opaque bounds
predicate.  Fails (as the platform computation would) when a mapped image
lacks the bands or calibration metadata its transform needs. -/
def performNDVIAnalysis (aoi : List Coords) (year : Int) (points : List Feature)
    (landsat8Cat landsat9Cat sentinel2Cat : List EEImage)
    (inBounds : EEImage → Bool) : Option AnalysisResult := do
  let startDate := Date.fromYMD year 1 1
  let endDate := Date.fromYMD (year + 1) 1 1
  let landsat8 ← ((filterDate startDate endDate landsat8Cat).filter inBounds).mapM processLandsat
  let landsat9 ← ((filterDate startDate endDate landsat9Cat).filter inBounds).mapM processLandsat
  let sentinel2 ← ((filterDate startDate endDate sentinel2Cat).filter inBounds).mapM processSentinel
  let ndviCollection := sortByTime (landsat8 ++ landsat9 ++ sentinel2)
  let monthlyNDVI := computeMonthlyNDVI year ndviCollection
  let ndviImage := (toBands monthlyNDVI).clip aoi
  let aoiChart : Series :=
    { label := "", data := monthlyNDVI.map (fun img => (img.getDate, regionMean img aoi)) }
  let pointsChart :=
    if points.length > 0 then seriesByRegion monthlyNDVI points "name" else []
  let exportReq := generateExportURL ndviImage aoi
  return { monthlyNDVI := monthlyNDVI, ndviImage := ndviImage, aoiChart := aoiChart,
           pointsChart := pointsChart, exportReq := exportReq }

/-- The script's global mutable state plus the map/UI state it observes:
`userAOI`, `startYear`, `points`, `pointCounter` (src/index.js:41-44), the
drawing-tools layers, the number of registered `Map.onClick` handlers (the
"Add Points" button registers a fresh identical handler on every press and
never removes one), the named map layers, the alerts shown, and the control
panel entries. -/
structure AppState where
  userAOI : Option (List Coords)
  startYear : Int
  points : List Feature
  pointCounter : Nat
  drawnLayers : List (List Coords)
  clickHandlers : Nat
  mapLayers : List String
  alerts : List String
  panel : List String
deriving DecidableEq

/-- The initial state after script load (src/index.js:41-44). -/
def initState : AppState :=
  { userAOI := none, startYear := 2022, points := [], pointCounter := 0,
    drawnLayers := [], clickHandlers := 0, mapLayers := [], alerts := [],
    panel := [] }

/-- One invocation of the map-click callback registered by the "Add Points"
button (src/index.js:74-82): increment the counter, name the point
`'Point ' + pointCounter`, append the feature to `points`, add a map layer,
and alert. -/
def handleMapClickOnce (coords : Coords) (s : AppState) : AppState :=
  let c := s.pointCounter + 1
  let pointName := "Point " ++ toString c
  let feature : Feature := { location := coords, props := [("name", .str pointName)] }
  { s with pointCounter := c,
           points := s.points ++ [feature],
           mapLayers := s.mapLayers ++ [pointName],
           alerts := s.alerts ++ ["Point added! Total points: " ++ toString c] }

/-- Pressing the "Add Points" button (src/index.js:71-85): register one more
`Map.onClick` handler (never deregistering earlier ones) and alert. -/
def pressAddPointButton (s : AppState) : AppState :=
  { s with clickHandlers := s.clickHandlers + 1,
           alerts := s.alerts ++ ["Click on the map to add points for NDVI comparison."] }

/-- A single map click: every registered handler fires once, in order; all
registered handlers are the same closure. -/
def mapClick (coords : Coords) (s : AppState) : AppState :=
  (handleMapClickOnce coords)^[s.clickHandlers] s

/-- Pressing the "Run Analysis" button (src/index.js:89-104): if no drawing
layer exists, alert and return; otherwise store the first layer as the AOI
and run `performNDVIAnalysis`, whose display effects (map clear and layer,
panel chart and export entries) are applied to the state; a failed platform
computation aborts the handler after the AOI assignment. -/
def pressRunAnalysisButton (s : AppState)
    (landsat8Cat landsat9Cat sentinel2Cat : List EEImage)
    (inBounds : EEImage → Bool) : AppState :=
  match s.drawnLayers with
  | [] => { s with alerts := s.alerts ++ ["Please draw an AOI before running the analysis."] }
  | aoi :: _ =>
    let s1 := { s with userAOI := some aoi }
    match performNDVIAnalysis aoi s1.startYear s1.points
        landsat8Cat landsat9Cat sentinel2Cat inBounds with
    | some res =>
      { s1 with
        mapLayers := ["Monthly NDVI"],
        panel := s1.panel ++ ["NDVI Trends Over Time (AOI):"] ++
          (if res.pointsChart.length > 0 then ["NDVI Comparison for Points:"] else []) ++
          ["Export NDVIMap:"] }
    | none => s1

/-- Fuel-free reference rendering of a natural number's decimal digits,
mirroring `Nat.toDigitsCore` at base 10. -/
def repChars (n : Nat) : List Char :=
  if _h : n < 10 then [Nat.digitChar n]
  else repChars (n / 10) ++ [Nat.digitChar (n % 10)]
decreasing_by exact Nat.div_lt_self (by omega) (by omega)

theorem repChars_lt {n : Nat} (h : n < 10) : repChars n = [Nat.digitChar n] := by
  rw [repChars]
  simp [h]

theorem repChars_ge {n : Nat} (h : ¬ n < 10) :
    repChars n = repChars (n / 10) ++ [Nat.digitChar (n % 10)] := by
  conv_lhs => rw [repChars]
  simp [h]

theorem repChars_ne_nil (n : Nat) : repChars n ≠ [] := by
  by_cases h : n < 10
  · rw [repChars_lt h]
    simp
  · rw [repChars_ge h]
    simp

theorem toDigitsCore_eq_repChars (f : Nat) :
    ∀ n acc, n < f → Nat.toDigitsCore 10 f n acc = repChars n ++ acc := by
  induction f with
  | zero => intro n acc h; omega
  | succ f ih =>
    intro n acc h
    rw [Nat.toDigitsCore]
    by_cases h10 : n < 10
    · have hdiv : n / 10 = 0 := Nat.div_eq_of_lt h10
      simp only [hdiv, if_true, reduceIte]
      rw [repChars_lt h10, Nat.mod_eq_of_lt h10]
      rfl
    · have hdiv : n / 10 ≠ 0 := by
        intro hc
        exact h10 (by omega : n < 10)
      simp only [hdiv, if_false, reduceIte]
      have hlt : n / 10 < f := by
        have h1 : n / 10 < n := Nat.div_lt_self (by omega) (by omega)
        omega
      rw [ih (n / 10) _ hlt, repChars_ge h10]
      simp

theorem repr_eq_repChars (n : Nat) : Nat.repr n = (repChars n).asString := by
  show (Nat.toDigits 10 n).asString = (repChars n).asString
  rw [Nat.toDigits, toDigitsCore_eq_repChars (n + 1) n [] (by omega)]
  simp

theorem digitChar_inj_lt {m n : Nat} (hm : m < 10) (hn : n < 10)
    (h : Nat.digitChar m = Nat.digitChar n) : m = n := by
  interval_cases m <;> interval_cases n <;> simp_all [Nat.digitChar]

theorem append_singleton_inj {α : Type} {l₁ l₂ : List α} {a b : α}
    (h : l₁ ++ [a] = l₂ ++ [b]) : l₁ = l₂ ∧ a = b := by
  have hr := congrArg List.reverse h
  simp only [List.reverse_append, List.reverse_cons, List.reverse_nil,
    List.nil_append, List.singleton_append] at hr
  obtain ⟨hab, hl⟩ := List.cons.injEq .. ▸ hr
  exact ⟨by simpa using congrArg List.reverse hl, hab⟩

theorem repChars_inj : ∀ m n : Nat, repChars m = repChars n → m = n := by
  intro m
  induction m using Nat.strong_induction_on with
  | _ m ih =>
    intro n h
    by_cases hm : m < 10 <;> by_cases hn : n < 10
    · rw [repChars_lt hm, repChars_lt hn] at h
      exact digitChar_inj_lt hm hn (by simpa using h)
    · rw [repChars_lt hm, repChars_ge hn] at h
      have h' : ([] : List Char) ++ [Nat.digitChar m] =
          repChars (n / 10) ++ [Nat.digitChar (n % 10)] := by simpa using h
      obtain ⟨hl, -⟩ := append_singleton_inj h'
      exact absurd hl.symm (repChars_ne_nil _)
    · rw [repChars_ge hm, repChars_lt hn] at h
      have h' : repChars (m / 10) ++ [Nat.digitChar (m % 10)] =
          ([] : List Char) ++ [Nat.digitChar n] := by simpa using h
      obtain ⟨hl, -⟩ := append_singleton_inj h'
      exact absurd hl (repChars_ne_nil _)
    · rw [repChars_ge hm, repChars_ge hn] at h
      obtain ⟨hq, hr⟩ := append_singleton_inj h
      have hqeq : m / 10 = n / 10 :=
        ih (m / 10) (Nat.div_lt_self (by omega) (by omega)) _ hq
      have hreq : m % 10 = n % 10 :=
        digitChar_inj_lt (Nat.mod_lt _ (by omega)) (Nat.mod_lt _ (by omega)) hr
      omega

theorem natRepr_inj {m n : Nat} (h : Nat.repr m = Nat.repr n) : m = n := by
  rw [repr_eq_repChars, repr_eq_repChars] at h
  exact repChars_inj m n (by
    have := congrArg String.data h
    simpa using this)

theorem pointName_inj {m n : Nat}
    (h : "Point " ++ toString m = "Point " ++ toString n) : m = n := by
  have hd := congrArg String.data h
  simp only [String.data_append] at hd
  have : (toString m : String).data = (toString n : String).data :=
    List.append_cancel_left hd
  exact natRepr_inj (by
    show Nat.repr m = Nat.repr n
    exact String.ext this)

/-- C1: every composite emitted by the Monthly Aggregator for month m, on a
run with selected year Y, is tagged with a synthesized timestamp whose year
component is Y + 1 (the following year), whose month component is m, and
whose day component is 1. -/
theorem monthly_composites_dated_following_year (y : Int) (c : List EEImage) :
    (computeMonthlyNDVI y c).map EEImage.getDate =
      monthsSeq.map (fun m => some (Date.fromYMD (y + 1) m 1)) := by
  simp only [computeMonthlyNDVI, List.map_map]
  exact List.map_congr_left (fun m _ => rfl)


theorem monthsSeq_length : monthsSeq.length = 12 := by
  simp only [monthsSeq, List.length_map, List.length_range]

theorem computeMonthlyNDVI_length (y : Int) (c : List EEImage) :
    (computeMonthlyNDVI y c).length = 12 := by
  simp only [computeMonthlyNDVI, List.length_map, monthsSeq_length]

theorem monthsSeq_getElem (i : Nat) (hi : i < monthsSeq.length) :
    monthsSeq[i] = (i : Int) + 1 := by
  simp only [monthsSeq, List.getElem_map, List.getElem_range]

theorem computeMonthlyNDVI_get (y : Int) (c : List EEImage) (i : Nat)
    (h : i < (computeMonthlyNDVI y c).length) :
    (computeMonthlyNDVI y c).get ⟨i, h⟩ =
      ((medianCollection (c.filter (calendarRangeMonth ((i : Int) + 1)))).set
        "system:time_start" (.date (y + 1) ((i : Int) + 1) 1)).set
        "system:index" (.str (Date.fromYMD (y + 1) ((i : Int) + 1) 1).formatYM) := by
  have hm : i < monthsSeq.length := by
    rw [monthsSeq_length]
    rw [computeMonthlyNDVI_length] at h
    exact h
  simp only [computeMonthlyNDVI, List.get_eq_getElem, List.getElem_map]
  rw [monthsSeq_getElem i hm]
  rfl

/-- C2: for every input collection and year, the Monthly Aggregator produces
exactly 12 composites whose month tags are 1..12 in ascending order, each
month exactly once, independent of the input collection's ordering. -/
theorem monthly_aggregator_exactly_twelve (y : Int) (c : List EEImage) :
    (computeMonthlyNDVI y c).length = 12 ∧
    (computeMonthlyNDVI y c).map (fun img => img.getDate.map Date.month) =
      [some 1, some 2, some 3, some 4, some 5, some 6,
       some 7, some 8, some 9, some 10, some 11, some 12] := by
  refine ⟨computeMonthlyNDVI_length y c, ?_⟩
  simp only [computeMonthlyNDVI, List.map_map]
  rfl

/-- C5: the month-m entry of the Monthly Aggregator is the per-pixel median
composite of the sub-collection selected by calendar month alone (any raster
whose acquisition month is m, regardless of its year, and no other), and when
that sub-collection is empty the entry is a fully masked raster rather than
an error. -/
theorem monthly_filter_is_month_only_and_empty_is_masked (y : Int)
    (c : List EEImage) (i : Nat) (hlen : i < (computeMonthlyNDVI y c).length) :
    ((computeMonthlyNDVI y c).get ⟨i, hlen⟩).bands =
      (medianCollection (c.filter (calendarRangeMonth ((i : Int) + 1)))).bands ∧
    (∀ img ∈ c, img ∈ c.filter (calendarRangeMonth ((i : Int) + 1)) ↔
      ∃ d, img.getDate = some d ∧ d.month = (i : Int) + 1) ∧
    (c.filter (calendarRangeMonth ((i : Int) + 1)) = [] →
      ∀ b ∈ ((computeMonthlyNDVI y c).get ⟨i, hlen⟩).bands, ∀ p, b.val p = none) := by
  refine ⟨by rw [computeMonthlyNDVI_get]; rfl, ?_, ?_⟩
  · intro img hmem
    simp only [List.mem_filter, hmem, true_and, calendarRangeMonth]
    cases hdate : img.getDate with
    | none => simp
    | some d =>
      simp only [decide_eq_true_eq]
      constructor
      · intro hm
        exact ⟨d, rfl, hm⟩
      · rintro ⟨d', hd', hm⟩
        cases hd'
        exact hm
  · intro hempty b hb p
    rw [computeMonthlyNDVI_get] at hb
    simp only [EEImage.set, medianCollection, hempty] at hb
    simp only [List.mem_singleton] at hb
    subst hb
    simp [bandValsAt, medianQ]

/-- Witness for C5: with a single January 2022 image in the collection, the
February entry (index 1) of the aggregation satisfies the claim; in
particular the empty February sub-collection yields a fully masked raster. -/
theorem monthly_filter_witness :
    (1 : Nat) < (computeMonthlyNDVI 2022
      [{ bands := [⟨"ndvi", fun _ => some (1/2)⟩],
         props := [("system:time_start", PropVal.date 2022 1 15)] }]).length ∧
    (let c : List EEImage :=
      [{ bands := [⟨"ndvi", fun _ => some (1/2)⟩],
         props := [("system:time_start", PropVal.date 2022 1 15)] }]
     ∀ hlen : (1 : Nat) < (computeMonthlyNDVI 2022 c).length,
      ((computeMonthlyNDVI 2022 c).get ⟨1, hlen⟩).bands =
        (medianCollection (c.filter (calendarRangeMonth (((1 : Nat) : Int) + 1)))).bands ∧
      (∀ img ∈ c, img ∈ c.filter (calendarRangeMonth (((1 : Nat) : Int) + 1)) ↔
        ∃ d, img.getDate = some d ∧ d.month = ((1 : Nat) : Int) + 1) ∧
      (c.filter (calendarRangeMonth (((1 : Nat) : Int) + 1)) = [] →
        ∀ b ∈ ((computeMonthlyNDVI 2022 c).get ⟨1, hlen⟩).bands, ∀ p, b.val p = none)) := by
  refine ⟨by rw [computeMonthlyNDVI_length]; omega, fun hlen => ?_⟩
  exact monthly_filter_is_month_only_and_empty_is_masked 2022 _ 1 hlen

theorem getBand_select (img : EEImage) (pred : String → Bool) (n : String)
    (hp : pred n = true) : (img.select pred).getBand n = img.getBand n := by
  simp only [EEImage.select, EEImage.getBand, List.find?_filter]
  congr 1
  funext b
  by_cases hn : b.name = n
  · simp [hn, hp]
  · simp [hn]

theorem getBand_multiplyC (img : EEImage) (c : ℚ) (n : String) :
    (img.multiplyC c).getBand n = (img.getBand n).map (fun b => b.mapVal (· * c)) := by
  simp only [EEImage.multiplyC, EEImage.getBand, List.find?_map]
  rfl

theorem getBand_addC (img : EEImage) (c : ℚ) (n : String) :
    (img.addC c).getBand n = (img.getBand n).map (fun b => b.mapVal (· + c)) := by
  simp only [EEImage.addC, EEImage.getBand, List.find?_map]
  rfl

/-- C4: wherever the NDVI transform's ratio is formed over unmasked
non-negative NIR and RED values with positive sum, the output pixel carries
`(NIR − RED)/(NIR + RED)`, which lies in [-1, 1]; where the sum is zero the
output pixel is masked (no-data), not NaN and not a default value, and the
computation is total. -/
theorem ndvi_pixel_in_range_or_masked (img out : EEImage) (b1 b2 : String)
    (x y : Band) (bd : Band) (p : Coords) (a b : ℚ)
    (hx : img.getBand b1 = some x) (hy : img.getBand b2 = some y)
    (hout : img.normalizedDifference b1 b2 = some out)
    (hbd : out.getBand "nd" = some bd)
    (ha : x.val p = some a) (hb : y.val p = some b)
    (hna : 0 ≤ a) (hnb : 0 ≤ b) :
    (0 < a + b → bd.val p = some ((a - b) / (a + b)) ∧
      -1 ≤ (a - b) / (a + b) ∧ (a - b) / (a + b) ≤ 1) ∧
    (a + b = 0 → bd.val p = none) := by
  rw [EEImage.normalizedDifference, hx, hy, Option.some_bind, Option.some_bind] at hout
  obtain rfl : _ = out := Option.some.inj hout
  rw [EEImage.getBand, List.find?_cons_of_pos _ (by simp)] at hbd
  obtain rfl : _ = bd := Option.some.inj hbd
  simp only [ndOp, ha, hb]
  constructor
  · intro hpos
    have hne : a + b ≠ 0 := ne_of_gt hpos
    refine ⟨by simp [hne], ?_, ?_⟩
    · rw [le_div_iff₀ hpos]
      linarith
    · rw [div_le_one hpos]
      linarith
  · intro hz
    simp [hz]

/-- Witness for C4: NIR = 1/2, RED = 1/10 yields pixel value
(1/2 − 1/10)/(1/2 + 1/10) = 2/3 ∈ [-1, 1]. -/
theorem ndvi_pixel_witness :
    (0 : ℚ) < 1/2 + 1/10 ∧
    ((0 : ℚ) < 1/2 + 1/10 →
      Band.val ⟨"nd", fun p => ndOp ((Band.val ⟨"B8", fun _ => some (1/2)⟩) p)
        ((Band.val ⟨"B4", fun _ => some (1/10)⟩) p)⟩ (0, 0) =
        some ((1/2 - 1/10) / (1/2 + 1/10)) ∧
      -1 ≤ ((1:ℚ)/2 - 1/10) / (1/2 + 1/10) ∧ ((1:ℚ)/2 - 1/10) / (1/2 + 1/10) ≤ 1) := by
  constructor
  · norm_num
  · have h := ndvi_pixel_in_range_or_masked
      { bands := [⟨"B8", fun _ => some (1/2)⟩, ⟨"B4", fun _ => some (1/10)⟩], props := [] }
      _ "B8" "B4" ⟨"B8", fun _ => some (1/2)⟩ ⟨"B4", fun _ => some (1/10)⟩
      _ (0, 0) (1/2) (1/10) rfl rfl rfl rfl rfl rfl (by norm_num) (by norm_num)
    exact h.1

/-- C3: the Per-Image NDVI Transform computes `(NIR − RED)/(NIR + RED)` after
source-appropriate calibration: `processLandsat` reads the red band's
multiplicative gain and additive offset from the image's own metadata and
applies `raw * gain + offset` uniformly to the selected band window before
forming the ratio of calibrated `SR_B5` (NIR) and `SR_B4` (RED);
`processSentinel` scales all spectral bands by the fixed factor
0.0001 = 1/10000 before forming the same ratio of `B8` and `B4`. -/
theorem ndvi_formula_with_calibration
    (limg : EEImage) (g o : ℚ) (nir red : Band) (lout : EEImage)
    (hg : limg.getNum "REFLECTANCE_MULT_BAND_4" = some g)
    (ho : limg.getNum "REFLECTANCE_ADD_BAND_4" = some o)
    (hn : limg.getBand "SR_B5" = some nir) (hr : limg.getBand "SR_B4" = some red)
    (hlout : processLandsat limg = some lout)
    (simg : EEImage) (nir2 red2 : Band) (sout : EEImage)
    (hn2 : simg.getBand "B8" = some nir2) (hr2 : simg.getBand "B4" = some red2)
    (hsout : processSentinel simg = some sout) :
    (∀ p a b, nir.val p = some a → red.val p = some b →
      (a * g + o) + (b * g + o) ≠ 0 →
      samplePoint lout p =
        some (((a * g + o) - (b * g + o)) / ((a * g + o) + (b * g + o)))) ∧
    (∀ p a b, nir2.val p = some a → red2.val p = some b →
      a * (1 / 10000) + b * (1 / 10000) ≠ 0 →
      samplePoint sout p =
        some ((a * (1 / 10000) - b * (1 / 10000)) /
          (a * (1 / 10000) + b * (1 / 10000)))) := by
  have h5 : (((limg.select landsatBandPat).multiplyC g).addC o).getBand "SR_B5" =
      some ((nir.mapVal (· * g)).mapVal (· + o)) := by
    rw [getBand_addC, getBand_multiplyC, getBand_select _ _ _ (by decide), hn]
    rfl
  have h4 : (((limg.select landsatBandPat).multiplyC g).addC o).getBand "SR_B4" =
      some ((red.mapVal (· * g)).mapVal (· + o)) := by
    rw [getBand_addC, getBand_multiplyC, getBand_select _ _ _ (by decide), hr]
    rfl
  have h8 : ((simg.select sentinelBandPat).multiplyC (1 / 10000)).getBand "B8" =
      some (nir2.mapVal (· * (1 / 10000))) := by
    rw [getBand_multiplyC, getBand_select _ _ _ (by decide), hn2]
    rfl
  have h4s : ((simg.select sentinelBandPat).multiplyC (1 / 10000)).getBand "B4" =
      some (red2.mapVal (· * (1 / 10000))) := by
    rw [getBand_multiplyC, getBand_select _ _ _ (by decide), hr2]
    rfl
  constructor
  · intro p a b ha hb hne
    simp only [processLandsat, hg, ho, Option.bind_eq_bind, Option.some_bind] at hlout
    rw [EEImage.normalizedDifference, h5, h4] at hlout
    simp only [Option.some_bind, Option.pure_def] at hlout
    obtain rfl : _ = lout := Option.some.inj hlout
    simp only [samplePoint, EEImage.copyProperties, EEImage.renameTo, EEImage.getBand,
      List.map_cons, List.map_nil]
    rw [List.find?_cons_of_pos _ (by simp), Option.some_bind]
    simp only [Band.mapVal, ha, hb, Option.map_some', ndOp]
    rw [if_neg hne]
  · intro p a b ha hb hne
    simp only [processSentinel, Option.bind_eq_bind] at hsout
    rw [EEImage.normalizedDifference, h8, h4s] at hsout
    simp only [Option.some_bind, Option.pure_def] at hsout
    obtain rfl : _ = sout := Option.some.inj hsout
    simp only [samplePoint, EEImage.copyProperties, EEImage.renameTo, EEImage.getBand,
      List.map_cons, List.map_nil]
    rw [List.find?_cons_of_pos _ (by simp), Option.some_bind]
    simp only [Band.mapVal, ha, hb, Option.map_some', ndOp]
    rw [if_neg hne]

/-- Witness for C3: a Landsat-style image with gain 2 and offset 3 read from
its metadata, NIR raw 5 and RED raw 7, yields NDVI
((5·2+3) − (7·2+3))/((5·2+3) + (7·2+3)); a Sentinel-style image with raw
B8 = 3 and B4 = 1 yields the 1/10000-scaled ratio. -/
theorem ndvi_formula_witness :
    ∃ lout sout,
      processLandsat
        { bands := [⟨"SR_B4", fun _ => some 7⟩, ⟨"SR_B5", fun _ => some 5⟩],
          props := [("REFLECTANCE_MULT_BAND_4", PropVal.num 2),
                    ("REFLECTANCE_ADD_BAND_4", PropVal.num 3)] } = some lout ∧
      processSentinel
        { bands := [⟨"B4", fun _ => some 1⟩, ⟨"B8", fun _ => some 3⟩],
          props := [] } = some sout ∧
      samplePoint lout (0, 0) =
        some (((5 * 2 + 3) - (7 * 2 + 3)) / ((5 * 2 + 3) + (7 * 2 + 3))) ∧
      samplePoint sout (0, 0) =
        some ((3 * (1 / 10000) - 1 * (1 / 10000)) /
          (3 * (1 / 10000) + 1 * (1 / 10000))) := by
  have hl : (processLandsat
      { bands := [⟨"SR_B4", fun _ => some 7⟩, ⟨"SR_B5", fun _ => some 5⟩],
        props := [("REFLECTANCE_MULT_BAND_4", PropVal.num 2),
                  ("REFLECTANCE_ADD_BAND_4", PropVal.num 3)] }).isSome = true := rfl
  have hs : (processSentinel
      { bands := [⟨"B4", fun _ => some 1⟩, ⟨"B8", fun _ => some 3⟩],
        props := [] }).isSome = true := rfl
  have h := ndvi_formula_with_calibration
    { bands := [⟨"SR_B4", fun _ => some 7⟩, ⟨"SR_B5", fun _ => some 5⟩],
      props := [("REFLECTANCE_MULT_BAND_4", PropVal.num 2),
                ("REFLECTANCE_ADD_BAND_4", PropVal.num 3)] }
    2 3 ⟨"SR_B5", fun _ => some 5⟩ ⟨"SR_B4", fun _ => some 7⟩ _
    rfl rfl rfl rfl (Option.some_get hl).symm
    { bands := [⟨"B4", fun _ => some 1⟩, ⟨"B8", fun _ => some 3⟩], props := [] }
    ⟨"B8", fun _ => some 3⟩ ⟨"B4", fun _ => some 1⟩ _
    rfl rfl (Option.some_get hs).symm
  exact ⟨_, _, (Option.some_get hl).symm, (Option.some_get hs).symm,
    h.1 (0, 0) 5 7 rfl rfl (by norm_num), h.2 (0, 0) 3 1 rfl rfl (by norm_num)⟩

theorem copyProperties_all_keys (dst src : EEImage) (hdst : dst.props = src.props) :
    (dst.copyProperties src src.propertyNames).props = src.props := by
  simp only [EEImage.copyProperties, EEImage.propertyNames, hdst]
  have h1 : src.props.filter (fun kv => kv.1 ∈ src.props.map (·.1)) = src.props := by
    apply List.filter_eq_self.mpr
    intro kv hkv
    exact decide_eq_true (List.mem_map_of_mem (·.1) hkv)
  have h2 : src.props.filter (fun kv => kv.1 ∉ src.props.map (·.1)) = [] := by
    apply List.filter_eq_nil_iff.mpr
    intro kv hkv
    simp only [decide_eq_true_eq, Decidable.not_not]
    exact List.mem_map_of_mem (·.1) hkv
  rw [h1, h2, List.append_nil]

theorem processLandsat_shape (img out : EEImage) (h : processLandsat img = some out) :
    out.bands.map Band.name = ["ndvi"] ∧ out.props = img.props := by
  simp only [processLandsat, Option.bind_eq_bind, Option.bind_eq_some, Option.pure_def,
    Option.some.injEq] at h
  obtain ⟨g, hg, o, ho, nd, hnd, hout⟩ := h
  simp only [EEImage.normalizedDifference, Option.bind_eq_some, Option.some.injEq] at hnd
  obtain ⟨x, hx, y, hy, hnd⟩ := hnd
  subst hnd
  subst hout
  constructor
  · rfl
  · exact copyProperties_all_keys _ _ rfl

theorem processSentinel_shape (img out : EEImage) (h : processSentinel img = some out) :
    out.bands.map Band.name = ["ndvi"] ∧ out.props = img.props := by
  simp only [processSentinel, Option.bind_eq_bind, Option.bind_eq_some, Option.pure_def,
    Option.some.injEq] at h
  obtain ⟨nd, hnd, hout⟩ := h
  simp only [EEImage.normalizedDifference, Option.bind_eq_some, Option.some.injEq] at hnd
  obtain ⟨x, hx, y, hy, hnd⟩ := hnd
  subst hnd
  subst hout
  constructor
  · rfl
  · exact copyProperties_all_keys _ _ rfl

theorem getDate_eq_of_props (a b : EEImage) (h : a.props = b.props) :
    a.getDate = b.getDate := by
  simp only [EEImage.getDate, EEImage.getProp, h]

/-- C8: every raster produced by the Per-Image NDVI Transform has exactly one
band, canonically named `ndvi`, and carries forward all metadata properties of
its source image, so the acquisition timestamp survives into downstream
aggregation and charting; no output raster lacks a timestamp when its source
has one. -/
theorem ndvi_raster_single_band_and_metadata (limg lout simg sout : EEImage)
    (d d2 : Date)
    (hl : processLandsat limg = some lout) (hs : processSentinel simg = some sout)
    (hd : limg.getDate = some d) (hd2 : simg.getDate = some d2) :
    lout.bands.map Band.name = ["ndvi"] ∧ lout.props = limg.props ∧
      lout.getDate = some d ∧
    sout.bands.map Band.name = ["ndvi"] ∧ sout.props = simg.props ∧
      sout.getDate = some d2 := by
  obtain ⟨hb1, hp1⟩ := processLandsat_shape limg lout hl
  obtain ⟨hb2, hp2⟩ := processSentinel_shape simg sout hs
  refine ⟨hb1, hp1, ?_, hb2, hp2, ?_⟩
  · rw [getDate_eq_of_props lout limg hp1, hd]
  · rw [getDate_eq_of_props sout simg hp2, hd2]

/-- Witness for C8: the two transforms applied to concrete calibratable
images produce single-band `ndvi` rasters that keep their source's property
list and June 2022 timestamp. -/
theorem ndvi_raster_schema_witness :
    ∃ lout sout,
      processLandsat
        { bands := [⟨"SR_B4", fun _ => some 1⟩, ⟨"SR_B5", fun _ => some 2⟩],
          props := [("system:time_start", PropVal.date 2022 6 15),
                    ("REFLECTANCE_MULT_BAND_4", PropVal.num 1),
                    ("REFLECTANCE_ADD_BAND_4", PropVal.num 0)] } = some lout ∧
      processSentinel
        { bands := [⟨"B4", fun _ => some 1⟩, ⟨"B8", fun _ => some 2⟩],
          props := [("system:time_start", PropVal.date 2022 6 20)] } = some sout ∧
      lout.bands.map Band.name = ["ndvi"] ∧
      lout.props = [("system:time_start", PropVal.date 2022 6 15),
                    ("REFLECTANCE_MULT_BAND_4", PropVal.num 1),
                    ("REFLECTANCE_ADD_BAND_4", PropVal.num 0)] ∧
      lout.getDate = some ⟨2022, 6, 15⟩ ∧
      sout.bands.map Band.name = ["ndvi"] ∧
      sout.props = [("system:time_start", PropVal.date 2022 6 20)] ∧
      sout.getDate = some ⟨2022, 6, 20⟩ := by
  have hl : (processLandsat
      { bands := [⟨"SR_B4", fun _ => some 1⟩, ⟨"SR_B5", fun _ => some 2⟩],
        props := [("system:time_start", PropVal.date 2022 6 15),
                  ("REFLECTANCE_MULT_BAND_4", PropVal.num 1),
                  ("REFLECTANCE_ADD_BAND_4", PropVal.num 0)] }).isSome = true := rfl
  have hs : (processSentinel
      { bands := [⟨"B4", fun _ => some 1⟩, ⟨"B8", fun _ => some 2⟩],
        props := [("system:time_start", PropVal.date 2022 6 20)] }).isSome = true := rfl
  have h := ndvi_raster_single_band_and_metadata _ _ _ _ ⟨2022, 6, 15⟩ ⟨2022, 6, 20⟩
    (Option.some_get hl).symm (Option.some_get hs).symm rfl rfl
  exact ⟨_, _, (Option.some_get hl).symm, (Option.some_get hs).symm, h.1, h.2.1,
    h.2.2.1, h.2.2.2.1, h.2.2.2.2.1, h.2.2.2.2.2⟩

theorem performNDVIAnalysis_shape (aoi : List Coords) (year : Int)
    (points : List Feature) (c1 c2 c3 : List EEImage) (ib : EEImage → Bool)
    (res : AnalysisResult)
    (h : performNDVIAnalysis aoi year points c1 c2 c3 ib = some res) :
    ∃ coll,
      res.monthlyNDVI = computeMonthlyNDVI year coll ∧
      res.pointsChart =
        (if points.length > 0
         then seriesByRegion (computeMonthlyNDVI year coll) points "name" else []) ∧
      res.exportReq =
        generateExportURL ((toBands (computeMonthlyNDVI year coll)).clip aoi) aoi := by
  simp only [performNDVIAnalysis, Option.bind_eq_bind, Option.bind_eq_some, Option.pure_def,
    Option.some.injEq] at h
  obtain ⟨l8, h8, l9, h9, s2, hs2, hres⟩ := h
  exact ⟨sortByTime (l8 ++ l9 ++ s2), by rw [← hres], by rw [← hres], by rw [← hres]⟩

/-- C7: the point-series chart query is skipped when there are no comparison
points, yielding zero series rather than an error; otherwise it yields
exactly one series per point, legend-labeled with that point's `name`
property. -/
theorem point_series_empty_skip_and_labels (aoi : List Coords) (year : Int)
    (points : List Feature) (c1 c2 c3 : List EEImage) (ib : EEImage → Bool)
    (res : AnalysisResult)
    (h : performNDVIAnalysis aoi year points c1 c2 c3 ib = some res) :
    (points = [] → res.pointsChart = []) ∧
    res.pointsChart.length = points.length ∧
    res.pointsChart.map Series.label = points.map Feature.nameOf := by
  obtain ⟨coll, -, hpc, -⟩ := performNDVIAnalysis_shape _ _ _ _ _ _ _ _ h
  rw [hpc]
  cases points with
  | nil => exact ⟨fun _ => rfl, rfl, rfl⟩
  | cons p ps =>
    refine ⟨fun hc => absurd hc (by simp), ?_, ?_⟩
    · simp [seriesByRegion]
    · simp [seriesByRegion, Feature.nameOf]

/-- Witness for C7: with no points the chart has zero series; with one named
point the chart has one series labeled with that point's name. -/
theorem point_series_witness :
    ∃ res0 res1,
      performNDVIAnalysis [(0, 0)] 2022 [] [] [] [] (fun _ => true) = some res0 ∧
      res0.pointsChart = [] ∧
      performNDVIAnalysis [(0, 0)] 2022
        [{ location := (1, 2), props := [("name", PropVal.str "Point 1")] }]
        [] [] [] (fun _ => true) = some res1 ∧
      res1.pointsChart.length = 1 ∧
      res1.pointsChart.map Series.label = ["Point 1"] := by
  have h0 : (performNDVIAnalysis [(0, 0)] 2022 [] [] [] [] (fun _ => true)).isSome = true := rfl
  have h1 : (performNDVIAnalysis [(0, 0)] 2022
      [{ location := (1, 2), props := [("name", PropVal.str "Point 1")] }]
      [] [] [] (fun _ => true)).isSome = true := rfl
  have w0 := point_series_empty_skip_and_labels _ _ _ _ _ _ _ _ (Option.some_get h0).symm
  have w1 := point_series_empty_skip_and_labels _ _ _ _ _ _ _ _ (Option.some_get h1).symm
  exact ⟨_, _, (Option.some_get h0).symm, w0.1 rfl, (Option.some_get h1).symm,
    w1.2.1, w1.2.2⟩

/-- C9: the export artifact request is a single GeoTIFF at ground sample
distance 30 over the AOI region, whose image holds one band per monthly
composite — 12 bands — in month order 1..12 (band names are the composites'
`YYYY-MM` indices with the `ndvi` band suffix). -/
theorem export_geotiff_30m_twelve_bands (aoi : List Coords) (year : Int)
    (points : List Feature) (c1 c2 c3 : List EEImage) (ib : EEImage → Bool)
    (res : AnalysisResult)
    (h : performNDVIAnalysis aoi year points c1 c2 c3 ib = some res) :
    res.exportReq.format = "GeoTIFF" ∧
    res.exportReq.scale = 30 ∧
    res.exportReq.region = aoi ∧
    res.exportReq.image.bands.length = 12 ∧
    res.exportReq.image.bands.map Band.name =
      monthsSeq.map
        (fun m => (Date.fromYMD (year + 1) m 1).formatYM ++ "_" ++ "ndvi") := by
  obtain ⟨coll, -, -, hex⟩ := performNDVIAnalysis_shape _ _ _ _ _ _ _ _ h
  rw [hex]
  exact ⟨rfl, rfl, rfl, rfl, rfl⟩

/-- Witness for C9: a run over empty catalogs requests a GeoTIFF at scale 30
over the drawn AOI with 12 bands named 2023-01..2023-12 in month order. -/
theorem export_geotiff_witness :
    ∃ res,
      performNDVIAnalysis [(0, 0), (0, 1)] 2022 [] [] [] [] (fun _ => true) = some res ∧
      res.exportReq.format = "GeoTIFF" ∧
      res.exportReq.scale = 30 ∧
      res.exportReq.region = [(0, 0), (0, 1)] ∧
      res.exportReq.image.bands.length = 12 ∧
      res.exportReq.image.bands.map Band.name =
        ["2023-01_ndvi", "2023-02_ndvi", "2023-03_ndvi", "2023-04_ndvi",
         "2023-05_ndvi", "2023-06_ndvi", "2023-07_ndvi", "2023-08_ndvi",
         "2023-09_ndvi", "2023-10_ndvi", "2023-11_ndvi", "2023-12_ndvi"] := by
  have h : (performNDVIAnalysis [(0, 0), (0, 1)] 2022 [] [] [] []
      (fun _ => true)).isSome = true := rfl
  have w := export_geotiff_30m_twelve_bands _ _ _ _ _ _ _ _ (Option.some_get h).symm
  refine ⟨_, (Option.some_get h).symm, w.1, w.2.1, w.2.2.1, w.2.2.2.1, ?_⟩
  rw [w.2.2.2.2]
  rfl

/-- C6: triggering Run Analysis before any AOI is drawn is blocked with a
user-visible prompt: the handler returns (totally, without crashing) a state
whose only change is the appended alert, so the point collection, point
counter, stored AOI and selected year are all unchanged. -/
theorem run_analysis_blocked_without_aoi (s : AppState)
    (c1 c2 c3 : List EEImage) (ib : EEImage → Bool)
    (h : s.drawnLayers = []) :
    pressRunAnalysisButton s c1 c2 c3 ib =
      { s with alerts := s.alerts ++ ["Please draw an AOI before running the analysis."] } ∧
    (pressRunAnalysisButton s c1 c2 c3 ib).points = s.points ∧
    (pressRunAnalysisButton s c1 c2 c3 ib).pointCounter = s.pointCounter ∧
    (pressRunAnalysisButton s c1 c2 c3 ib).userAOI = s.userAOI ∧
    (pressRunAnalysisButton s c1 c2 c3 ib).startYear = s.startYear := by
  have key : pressRunAnalysisButton s c1 c2 c3 ib =
      { s with alerts := s.alerts ++ ["Please draw an AOI before running the analysis."] } := by
    simp only [pressRunAnalysisButton, h]
  rw [key]
  exact ⟨rfl, rfl, rfl, rfl, rfl⟩

/-- Witness for C6: pressing Run Analysis in the initial state (no AOI drawn)
only appends the prompt and leaves points, counter, AOI and year unchanged. -/
theorem run_analysis_blocked_witness :
    initState.drawnLayers = [] ∧
    (pressRunAnalysisButton initState [] [] [] (fun _ => true) =
      { initState with
          alerts := initState.alerts ++
            ["Please draw an AOI before running the analysis."] } ∧
    (pressRunAnalysisButton initState [] [] [] (fun _ => true)).points =
      initState.points ∧
    (pressRunAnalysisButton initState [] [] [] (fun _ => true)).pointCounter =
      initState.pointCounter ∧
    (pressRunAnalysisButton initState [] [] [] (fun _ => true)).userAOI =
      initState.userAOI ∧
    (pressRunAnalysisButton initState [] [] [] (fun _ => true)).startYear =
      initState.startYear) :=
  ⟨rfl, run_analysis_blocked_without_aoi initState [] [] [] (fun _ => true) rfl⟩

/-- The point feature created by the k-th increment of the click handler. -/
def clickFeature (coords : Coords) (k : Nat) : Feature :=
  { location := coords, props := [("name", PropVal.str ("Point " ++ toString k))] }

theorem pressAddPointButton_iterate (n : Nat) (s : AppState) :
    (pressAddPointButton^[n] s).clickHandlers = s.clickHandlers + n ∧
    (pressAddPointButton^[n] s).points = s.points ∧
    (pressAddPointButton^[n] s).pointCounter = s.pointCounter := by
  induction n generalizing s with
  | zero => exact ⟨rfl, rfl, rfl⟩
  | succ n ih =>
    rw [Function.iterate_succ_apply]
    obtain ⟨h1, h2, h3⟩ := ih (pressAddPointButton s)
    refine ⟨?_, ?_, ?_⟩
    · rw [h1]
      simp only [pressAddPointButton]
      omega
    · rw [h2]
      simp only [pressAddPointButton]
    · rw [h3]
      simp only [pressAddPointButton]

theorem handleMapClickOnce_iterate (coords : Coords) (n : Nat) (s : AppState) :
    ((handleMapClickOnce coords)^[n] s).pointCounter = s.pointCounter + n ∧
    ((handleMapClickOnce coords)^[n] s).points =
      s.points ++
        (List.range n).map (fun i => clickFeature coords (s.pointCounter + i + 1)) := by
  induction n generalizing s with
  | zero => simp
  | succ n ih =>
    rw [Function.iterate_succ_apply]
    obtain ⟨h1, h2⟩ := ih (handleMapClickOnce coords s)
    constructor
    · rw [h1]
      simp only [handleMapClickOnce]
      omega
    · rw [h2]
      simp only [handleMapClickOnce]
      rw [List.range_succ_eq_map, List.map_cons, List.map_map, List.append_assoc,
        List.singleton_append]
      congr 1
      congr 1
      apply List.map_congr_left
      intro i _
      simp only [Function.comp]
      congr 1
      omega

/-- C10: each press of "Add Points" registers an additional map-click handler
without removing earlier ones, so after n presses (n ≥ 1) from a state with
no registered handler, one map click increments the point counter by n and
appends n point features whose auto-incremented `Point N` names are pairwise
distinct. -/
theorem add_points_click_handler_stacking (s : AppState) (n : Nat) (coords : Coords)
    (h0 : s.clickHandlers = 0) (_hn : 1 ≤ n) :
    (mapClick coords (pressAddPointButton^[n] s)).pointCounter =
      s.pointCounter + n ∧
    (mapClick coords (pressAddPointButton^[n] s)).points =
      s.points ++
        (List.range n).map (fun i => clickFeature coords (s.pointCounter + i + 1)) ∧
    ((List.range n).map
      (fun i => Feature.nameOf (clickFeature coords (s.pointCounter + i + 1)))).Nodup := by
  obtain ⟨hh, hp, hc⟩ := pressAddPointButton_iterate n s
  have hs1 : (pressAddPointButton^[n] s).clickHandlers = n := by
    rw [hh, h0, Nat.zero_add]
  rw [mapClick, hs1]
  obtain ⟨k1, k2⟩ := handleMapClickOnce_iterate coords n (pressAddPointButton^[n] s)
  refine ⟨by rw [k1, hc], by rw [k2, hp, hc], ?_⟩
  refine List.Nodup.map ?_ (List.nodup_range n)
  intro i j hij
  have hij' : "Point " ++ toString (s.pointCounter + i + 1) =
      "Point " ++ toString (s.pointCounter + j + 1) := hij
  have := pointName_inj hij'
  omega

/-- Witness for C10: from the initial state, two presses of "Add Points"
followed by one map click add two points named `Point 1` and `Point 2`
(distinct) and bump the counter by two. -/
theorem add_points_stacking_witness :
    initState.clickHandlers = 0 ∧ 1 ≤ 2 ∧
    ((mapClick (3, 4) (pressAddPointButton^[2] initState)).pointCounter =
      initState.pointCounter + 2 ∧
    (mapClick (3, 4) (pressAddPointButton^[2] initState)).points =
      initState.points ++
        (List.range 2).map (fun i => clickFeature (3, 4) (initState.pointCounter + i + 1)) ∧
    ((List.range 2).map
      (fun i => Feature.nameOf (clickFeature (3, 4) (initState.pointCounter + i + 1)))).Nodup) :=
  ⟨rfl, by omega, add_points_click_handler_stacking initState 2 (3, 4) rfl (by omega)⟩
